import Mathlib

/-!
# Verification of the open-sat-ai analysis pipeline core

Shallow embedding of the Plan Validation → Guardrail → Workflow Dispatch →
Time-Bucketed Aggregation → Statistics → Cache pipeline of the source
repository, together with proofs settling the frozen claims about it.

Modelling conventions:
* JavaScript numbers are modelled as exact rationals (`ℚ`); machine
  floating-point rounding is idealized away.
* JavaScript `Date` values are modelled by their UTC epoch-millisecond
  value (`Int`); date strings are parsed with the strict `YYYY-MM-DD`
  format that the repository's zod schemas enforce. The host timezone is
  taken to be UTC (the deployment default), so `getFullYear`/`getMonth`
  agree with the UTC fields of the parsed instant.
* Fallible code returns `Except`/`Option`; a thrown JS `Error e` is
  `Except.error e`.
-/

set_option maxRecDepth 20000

namespace OpenSatAI

/-! ## String helpers

Structurally recursive equivalents of the JS string operations used by
the source (`split`, `trim`, `parseInt` on digit strings, code-unit
comparison), written over `String.data` so that concrete instances
evaluate inside the kernel. -/

/-- `s.split(sep)` for a single-character separator. -/
def splitOnChar (sep : Char) (s : String) : List String :=
  (s.data.foldr
    (fun ch acc =>
      if ch = sep then [] :: acc
      else
        match acc with
        | g :: gs => (ch :: g) :: gs
        | [] => [[ch]])
    [[]]).map String.mk

/-- Decimal value of a digit string (used only after an all-digits
check, where it agrees with JS `parseInt(s, 10)`). -/
def decDigitsToNat (l : List Char) : Nat :=
  l.foldl (fun n c => n * 10 + (c.toNat - 48)) 0

/-- `String.prototype.trim`. -/
def strTrim (s : String) : String :=
  String.mk (((s.data.dropWhile Char.isWhitespace).reverse.dropWhile Char.isWhitespace).reverse)

/-- Code-unit lexicographic `≤` on char lists: the ordering of the JS
default array sort for (BMP) strings and of Lean's `String` order. -/
def charListLe : List Char → List Char → Bool
  | [], _ => true
  | _ :: _, [] => false
  | a :: as, b :: bs =>
    if a.toNat < b.toNat then true
    else if b.toNat < a.toNat then false
    else charListLe as bs

/-- Code-unit lexicographic `≤` on strings. -/
def strLeB (a b : String) : Bool := charListLe a.data b.data

/-! ## Calendar arithmetic (proleptic Gregorian, as used by JS `Date` in UTC) -/

/-- Gregorian leap-year test. -/
def isLeapYear (y : Nat) : Bool :=
  (y % 4 == 0 && y % 100 != 0) || (y % 400 == 0)

/-- Number of days in month `m` (1-based) of year `y`.
Embeds the JS idiom `new Date(year, month, 0).getDate()` used in
`createMonthlyComposite` (day 0 of the following month is the last day of
month `m`). -/
def daysInMonth (y m : Nat) : Nat :=
  if m = 2 then (if isLeapYear y then 29 else 28)
  else if m = 4 ∨ m = 6 ∨ m = 9 ∨ m = 11 then 30
  else 31

/-- Days in all years strictly before year `y` (counting from year 1). -/
def daysBeforeYear (y : Nat) : Nat :=
  365 * (y - 1) + (y - 1) / 4 + (y - 1) / 400 - (y - 1) / 100

/-- Days in year `y` strictly before month `m` (1-based). -/
def daysBeforeMonth (y m : Nat) : Nat :=
  (List.range (m - 1)).foldl (fun acc i => acc + daysInMonth y (i + 1)) 0

/-- Absolute day number of the civil date `y-m-d` (day 0 = 0001-01-01). -/
def dayNumber (y m d : Nat) : Nat :=
  daysBeforeYear y + daysBeforeMonth y m + (d - 1)

/-- Epoch day number of 1970-01-01. -/
def epochDayNumber : Nat := dayNumber 1970 1 1

/-- UTC epoch milliseconds of midnight at the civil date `y-m-d`,
as produced by JS `new Date("YYYY-MM-DD").getTime()`. -/
def msSinceEpoch (y m d : Nat) : Int :=
  ((dayNumber y m d : Int) - (epochDayNumber : Int)) * 86400000

/-- Parse a strict `YYYY-MM-DD` date string, insisting that the calendar
date exists (JS `new Date` yields an Invalid Date for e.g. `2023-02-29`
in the ISO path). Non-conforming strings parse to `none`, standing for
JS `NaN` dates. -/
def parseDate (s : String) : Option (Nat × Nat × Nat) :=
  match splitOnChar '-' s with
  | [ys, ms, ds] =>
    if ys.length = 4 ∧ ms.length = 2 ∧ ds.length = 2 ∧
        ys.data.all Char.isDigit ∧ ms.data.all Char.isDigit ∧ ds.data.all Char.isDigit then
      let y := decDigitsToNat ys.data
      let m := decDigitsToNat ms.data
      let d := decDigitsToNat ds.data
      if 1 ≤ m ∧ m ≤ 12 ∧ 1 ≤ d ∧ d ≤ daysInMonth y m then some (y, m, d)
      else none
    else none
  | _ => none

/-- `new Date(s).getTime()` for a `YYYY-MM-DD` string (`none` = `NaN`). -/
def parseDateMs (s : String) : Option Int :=
  (parseDate s).map (fun ymd => msSinceEpoch ymd.1 ymd.2.1 ymd.2.2)

/-! ## `Number.prototype.toFixed`, over exact rationals -/

/-- Pad a numeral string to `f` digits with leading zeros
(`String.prototype.padStart(f, "0")`). -/
def padZeros (f : Nat) (s : String) : String :=
  String.mk (List.replicate (f - s.length) '0') ++ s

/-- Render the non-negative integer `m` of scaled units as a decimal with
`f` fraction digits. -/
def renderFixed (f m : Nat) : String :=
  if f = 0 then Nat.repr m
  else Nat.repr (m / 10 ^ f) ++ "." ++ padZeros f (Nat.repr (m % 10 ^ f))

/-- `q.toFixed(f)`: round to `f` decimals, ties to the larger `n`
(ECMA-262 `Number.prototype.toFixed` step ordering), keeping the sign of
the input. -/
def toFixed (f : Nat) (q : ℚ) : String :=
  let n : Int := ⌊q * (10 : ℚ) ^ f + 1 / 2⌋
  if q < 0 then "-" ++ renderFixed f n.natAbs else renderFixed f n.toNat

/-! ## Data model (`src/lib/schemas/analysis-plan.ts`)

The repository carries two generations of the plan schema: the legacy one
(field `datasets`, read by `src/lib/guardrails.ts`) and the generalized
one (field `datasetIds`, read by `src/lib/cache/key.ts`). One structure
carries both list fields so that each consumer can be embedded
faithfully. -/

/-- `Location`: a named place or a `[west, south, east, north]` box. -/
inductive Location where
  | name (s : String)
  | bbox (west south east north : ℚ)
deriving DecidableEq

structure TimeRange where
  start : String
  «end» : String
deriving DecidableEq

structure AnalysisPlan where
  analysisType : String
  datasets : List String
  datasetIds : List String
  timeRange : TimeRange
  location : Location
deriving DecidableEq

/-! ## Guardrail engine (`src/lib/guardrails.ts`) -/

structure ValidationResult where
  valid : Bool
  error : Option String := none
  warnings : List String := []
deriving DecidableEq

/-- `GUARDRAILS.MAX_TIME_RANGE_YEARS` -/
def MAX_TIME_RANGE_YEARS : Nat := 5

/-- `GUARDRAILS.MAX_AOI_SIZE_DEGREES` -/
def MAX_AOI_SIZE_DEGREES : Nat := 10

/-- `GUARDRAILS.ALLOWED_ANALYSIS_TYPES` -/
def ALLOWED_ANALYSIS_TYPES : List String :=
  ["ndvi_change", "ndvi_timeseries", "ndvi_anomaly", "seasonal_trend"]

/-- `GUARDRAILS.ALLOWED_DATASETS` -/
def ALLOWED_DATASETS : List String := ["sentinel2", "landsat8", "modis"]

/-- Epoch ms of `new Date("2015-01-01")` (Sentinel-2 launch floor). -/
def oldestDateMs : Int := msSinceEpoch 2015 1 1

/-- `validateTimeRange(plan)`; `now` is the value of `new Date()`
(epoch ms) at the call. -/
def validateTimeRange (now : Int) (plan : AnalysisPlan) : ValidationResult :=
  match parseDateMs plan.timeRange.start, parseDateMs plan.timeRange.«end» with
  | some s, some e =>
    if s ≥ e then
      ⟨false, some "Start date must be before end date.", []⟩
    else
      let yearsDiff : ℚ := ((e - s : Int) : ℚ) / (1000 * 60 * 60 * 24 * 365)
      if yearsDiff > (MAX_TIME_RANGE_YEARS : ℚ) then
        ⟨false, some ("Time range too large. Maximum allowed: " ++
          Nat.repr MAX_TIME_RANGE_YEARS ++ " years. Your request: " ++
          toFixed 1 yearsDiff ++ " years."), []⟩
      else if e > now then
        ⟨false, some "End date cannot be in the future.", []⟩
      else if s < oldestDateMs then
        ⟨true, none,
          ["Start date is before 2015. Some datasets may have limited availability for this period."]⟩
      else
        ⟨true, none, []⟩
  | _, _ =>
    ⟨false, some "Invalid date format. Please use YYYY-MM-DD format.", []⟩

/-- `validateAnalysisType(plan)` -/
def validateAnalysisType (plan : AnalysisPlan) : ValidationResult :=
  if ¬ ALLOWED_ANALYSIS_TYPES.contains plan.analysisType then
    ⟨false, some ("Unsupported analysis type: \"" ++ plan.analysisType ++
      "\". Supported types: " ++ String.intercalate ", " ALLOWED_ANALYSIS_TYPES), []⟩
  else ⟨true, none, []⟩

/-- `validateDatasets(plan)` -/
def validateDatasets (plan : AnalysisPlan) : ValidationResult :=
  let unsupportedDatasets := plan.datasets.filter (fun ds => ¬ ALLOWED_DATASETS.contains ds)
  if unsupportedDatasets.length > 0 then
    ⟨false, some ("Unsupported datasets: " ++ String.intercalate ", " unsupportedDatasets ++
      ". Supported datasets: " ++ String.intercalate ", " ALLOWED_DATASETS), []⟩
  else ⟨true, none, []⟩

/-- `validateLocation(plan)` -/
def validateLocation (plan : AnalysisPlan) : ValidationResult :=
  match plan.location with
  | .name _ => ⟨true, none, []⟩
  | .bbox west south east north =>
    if west < -180 ∨ west > 180 ∨ east < -180 ∨ east > 180 then
      ⟨false, some "Longitude must be between -180 and 180.", []⟩
    else if south < -90 ∨ south > 90 ∨ north < -90 ∨ north > 90 then
      ⟨false, some "Latitude must be between -90 and 90.", []⟩
    else if west ≥ east then
      ⟨false, some "West longitude must be less than east longitude.", []⟩
    else if south ≥ north then
      ⟨false, some "South latitude must be less than north latitude.", []⟩
    else
      let width := east - west
      let height := north - south
      if width > (MAX_AOI_SIZE_DEGREES : ℚ) ∨ height > (MAX_AOI_SIZE_DEGREES : ℚ) then
        ⟨false, some ("Area of interest too large. Maximum: " ++
          Nat.repr MAX_AOI_SIZE_DEGREES ++ "° x " ++ Nat.repr MAX_AOI_SIZE_DEGREES ++
          "°. Your request: " ++ toFixed 2 width ++ "° x " ++ toFixed 2 height ++ "°."), []⟩
      else ⟨true, none, []⟩

/-- The four checks run by `validateAnalysisPlan`, in source order. -/
def guardrailChecks (now : Int) (plan : AnalysisPlan) : List ValidationResult :=
  [validateTimeRange now plan, validateAnalysisType plan,
   validateDatasets plan, validateLocation plan]

/-- `validateAnalysisPlan(plan)`: evaluate all four checks, collect every
failing check's message and every warning, and join the messages. -/
def validateAnalysisPlan (now : Int) (plan : AnalysisPlan) : ValidationResult :=
  let validations := guardrailChecks now plan
  let errors := validations.foldl
    (fun acc r =>
      if ¬ r.valid then
        match r.error with
        | some e => acc ++ [e]
        | none => acc
      else acc) []
  let warnings := validations.foldl (fun acc r => acc ++ r.warnings) []
  if errors.length > 0 then
    ⟨false, some (String.intercalate " " errors), warnings⟩
  else
    ⟨true, none, warnings⟩

/-! ## NDVI time-series workflow (`src/unnamed/part_002`, `ndvi.ts`) -/

/-- Format a year/month pair as `YYYY-MM`
(`` `${year}-${month.toString().padStart(2, "0")}` ``). -/
def formatYearMonth (y m : Nat) : String :=
  Nat.repr y ++ "-" ++ padZeros 2 (Nat.repr m)

/-- `getMonthsBetweenDates(startDate, endDate)`: the `YYYY-MM` labels of
every calendar month from the start date's month to the end date's month
inclusive. The JS loop runs on first-of-month `Date`s and compares them;
it is embedded as a range over linear month indices. Invalid dates make
the JS loop condition `NaN <= NaN` false, yielding `[]`. -/
def getMonthsBetweenDates (startDate endDate : String) : List String :=
  match parseDate startDate, parseDate endDate with
  | some (y1, m1, _), some (y2, m2, _) =>
    let startIdx := y1 * 12 + (m1 - 1)
    let endIdx := y2 * 12 + (m2 - 1)
    (List.range (endIdx + 1 - startIdx)).map (fun i =>
      formatYearMonth ((startIdx + i) / 12) ((startIdx + i) % 12 + 1))
  | _, _ => []

/-- The `[startDate, endDate]` filter window built by
`createMonthlyComposite` for a `YYYY-MM` bucket label: the first of the
month and the true last calendar day of that month
(`new Date(yearNum, monthNum, 0).getDate()`). Labels that do not parse
yield the JS `NaN` day rendering. -/
def createMonthlyCompositeWindow (yearMonth : String) : String × String :=
  match splitOnChar '-' yearMonth with
  | [ys, ms] =>
    if ys.data.all Char.isDigit ∧ ms.data.all Char.isDigit ∧ ys ≠ "" ∧ ms ≠ "" then
      (ys ++ "-" ++ ms ++ "-01",
       ys ++ "-" ++ ms ++ "-" ++ Nat.repr (daysInMonth (decDigitsToNat ys.data) (decDigitsToNat ms.data)))
    else (ys ++ "-" ++ ms ++ "-01", ys ++ "-" ++ ms ++ "-NaN")
  | _ => (yearMonth ++ "-01", yearMonth ++ "-NaN")

/-- `TimeSeriesPoint` of `src/lib/schemas/analysis-result.ts`. -/
structure TimeSeriesPoint where
  date : String
  value : ℚ
  label : Option String := none
deriving DecidableEq

/-- Terminal error thrown by `executeNDVITimeSeries` when no bucket
produced a valid value. -/
def noValidDataMsg : String :=
  "No valid NDVI data found for the specified time range and location. Try a different date range or location."

/-- The per-bucket body of the `executeNDVITimeSeries` loop. The remote
reduction for month `ym` is `fetchMonthMean ym`: `.error` is a rejected
`evaluate` promise (caught, logged and skipped), `.ok none` is a
`null`/`undefined`/`NaN` mean (skipped as no coverage), `.ok (some v)`
produces the point dated the 15th of the month. -/
def ndviMonthPoint (fetchMonthMean : String → Except String (Option ℚ))
    (ym : String) : Option TimeSeriesPoint :=
  match fetchMonthMean ym with
  | .ok (some v) => some ⟨ym ++ "-15", v, some ym⟩
  | .ok none => none
  | .error _ => none

/-- `executeNDVITimeSeries(plan, geometry)`, shallowly embedded over the
two remote suspension points: the per-month `reduceRegion().evaluate`
(`fetchMonthMean`) and the full-range composite `getMapId`
(`fetchTileUrl`). Returns the assembled chronological series together
with the map tile URL, or the first escaping error. -/
def executeNDVITimeSeries (fetchMonthMean : String → Except String (Option ℚ))
    (fetchTileUrl : Except String String) (startDate endDate : String) :
    Except String (List TimeSeriesPoint × String) :=
  let months := getMonthsBetweenDates startDate endDate
  let monthlyNDVI := months.filterMap (ndviMonthPoint fetchMonthMean)
  if monthlyNDVI.isEmpty then .error noValidDataMsg
  else
    match fetchTileUrl with
    | .error e => .error e
    | .ok url => .ok (monthlyNDVI, url)

/-- `true` exactly when a bucket's remote reduction did not raise. -/
def bucketOk (r : Except String (Option ℚ)) : Bool :=
  match r with
  | .ok _ => true
  | .error _ => false

/-- `true` exactly when a bucket's remote reduction returned a
`null`/`NaN` (no-coverage) value. -/
def bucketNoCoverage (r : Except String (Option ℚ)) : Bool :=
  match r with
  | .ok none => true
  | _ => false

/-! ## Statistics aggregator (`src/app/api/explain/route.ts`, stats block) -/

/-- The statistics record assembled by the run route. The source also
stores `stdDev = Math.sqrt(variance)`; the square root is irrational in
general, so the embedding keeps the `variance` it is derived from. -/
structure SummaryStats where
  mean : ℚ
  min : ℚ
  max : ℚ
  minDate : String
  maxDate : String
  variance : ℚ
  trend : String
deriving DecidableEq

/-- The first-vs-last percent change feeding the trend classification:
`((values[values.length - 1] - values[0]) / values[0]) * 100`. -/
def trendPercentChange (values : List ℚ) : ℚ :=
  (values.getLastD 0 - values.headD 0) / values.headD 0 * 100

/-- The trend string built by the route:
classification word plus signed `toFixed(1)` percentage. -/
def trendString (percentChange : ℚ) : String :=
  (if percentChange > 5 then "increasing"
   else if percentChange < -5 then "decreasing"
   else "stable") ++
  " (" ++ (if percentChange > 0 then "+" else "") ++ toFixed 1 percentChange ++ "%)"

/-- The statistics computation of the run route (`timeSeries.length > 0`
branch); `none` corresponds to the `stats = { changePercent }` fallback
for an absent/empty series. -/
def computeStats (timeSeries : List TimeSeriesPoint) : Option SummaryStats :=
  match timeSeries with
  | [] => none
  | p0 :: rest =>
    let values := (p0 :: rest).map TimeSeriesPoint.value
    let dates := (p0 :: rest).map TimeSeriesPoint.date
    let mean := values.foldl (· + ·) 0 / (values.length : ℚ)
    let minV := rest.foldl (fun a p => if p.value < a then p.value else a) p0.value
    let maxV := rest.foldl (fun a p => if p.value > a then p.value else a) p0.value
    let minIndex := values.indexOf minV
    let maxIndex := values.indexOf maxV
    let variance := (values.foldl (fun s v => s + (v - mean) ^ 2) 0) / (values.length : ℚ)
    let percentChange := trendPercentChange values
    some ⟨mean, minV, maxV, dates.getD minIndex "", dates.getD maxIndex "",
      variance, trendString percentChange⟩

/-- Modelled from the spec: the coarse trend classification word, written
from the spec's own thresholds (">+5% → increasing, <−5% → decreasing,
otherwise stable") to be compared with the label the code computes. -/
def trendLabelSpec (percentChange : ℚ) : String :=
  if percentChange > 5 then "increasing"
  else if percentChange < -5 then "decreasing"
  else "stable"

/-! ## SHA-256 (Node `crypto.createHash("sha256")`), over byte lists -/

/-- Truncate to a 32-bit word. -/
def w32 (x : Nat) : Nat := x % 4294967296

/-- 32-bit rotate right. -/
def rotr (n x : Nat) : Nat := w32 ((x >>> n) ||| (x <<< (32 - n)))

def bigSigma0 (x : Nat) : Nat := (rotr 2 x) ^^^ (rotr 13 x) ^^^ (rotr 22 x)

def bigSigma1 (x : Nat) : Nat := (rotr 6 x) ^^^ (rotr 11 x) ^^^ (rotr 25 x)

def smallSigma0 (x : Nat) : Nat := (rotr 7 x) ^^^ (rotr 18 x) ^^^ (x >>> 3)

def smallSigma1 (x : Nat) : Nat := (rotr 17 x) ^^^ (rotr 19 x) ^^^ (x >>> 10)

def sha256Ch (x y z : Nat) : Nat := (x &&& y) ^^^ ((x ^^^ 4294967295) &&& z)

def sha256Maj (x y z : Nat) : Nat := (x &&& y) ^^^ (x &&& z) ^^^ (y &&& z)

/-- The 64 SHA-256 round constants. -/
def sha256K : List Nat :=
  [1116352408, 1899447441, 3049323471, 3921009573, 961987163, 1508970993,
   2453635748, 2870763221, 3624381080, 310598401, 607225278, 1426881987,
   1925078388, 2162078206, 2614888103, 3248222580, 3835390401, 4022224774,
   264347078, 604807628, 770255983, 1249150122, 1555081692, 1996064986,
   2554220882, 2821834349, 2952996808, 3210313671, 3336571891, 3584528711,
   113926993, 338241895, 666307205, 773529912, 1294757372, 1396182291,
   1695183700, 1986661051, 2177026350, 2456956037, 2730485921, 2820302411,
   3259730800, 3345764771, 3516065817, 3600352804, 4094571909, 275423344,
   430227734, 506948616, 659060556, 883997877, 958139571, 1322822218,
   1537002063, 1747873779, 1955562222, 2024104815, 2227730452, 2361852424,
   2428436474, 2756734187, 3204031479, 3329325298]

/-- The initial SHA-256 hash state. -/
def sha256H0 : List Nat :=
  [1779033703, 3144134277, 1013904242, 2773480762, 1359893119,
   2600822924, 528734635, 1541459225]

/-- Append the SHA-256 padding: `0x80`, zeros to 56 mod 64 bytes, then the
bit length as a 64-bit big-endian integer. -/
def sha256Pad (msg : List Nat) : List Nat :=
  let len := msg.length
  let padCount := (55 + 64 - len % 64) % 64
  msg ++ [0x80] ++ List.replicate padCount 0 ++
    (List.range 8).map (fun i => ((len * 8) >>> (8 * (7 - i))) % 256)

/-- Big-endian 4-byte groups to 32-bit words. -/
def bytesToWords : List Nat → List Nat
  | a :: b :: c :: d :: rest => ((a <<< 24) ||| (b <<< 16) ||| (c <<< 8) ||| d) :: bytesToWords rest
  | _ => []

/-- Split padded bytes into 16-word blocks. -/
def sha256Blocks (bytes : List Nat) : List (List Nat) :=
  (List.range (bytes.length / 64)).map (fun i => bytesToWords ((bytes.drop (64 * i)).take 64))

/-- Message schedule `W[0..63]` from a 16-word block, built in reverse so
each step reads `W[t-2], W[t-7], W[t-15], W[t-16]` from the head. -/
def sha256Schedule (block : List Nat) : List Nat :=
  ((List.range 48).foldl (fun acc _ =>
    w32 (smallSigma1 (acc.getD 1 0) + acc.getD 6 0 +
      smallSigma0 (acc.getD 14 0) + acc.getD 15 0) :: acc) block.reverse).reverse

/-- One SHA-256 compression round. -/
def sha256Round (st : Nat × Nat × Nat × Nat × Nat × Nat × Nat × Nat) (wk : Nat × Nat) :
    Nat × Nat × Nat × Nat × Nat × Nat × Nat × Nat :=
  match st with
  | (a, b, c, d, e, f, g, h) =>
    let t1 := w32 (h + bigSigma1 e + sha256Ch e f g + wk.2 + wk.1)
    let t2 := w32 (bigSigma0 a + sha256Maj a b c)
    (w32 (t1 + t2), a, b, c, w32 (d + t1), e, f, g)

/-- Compress one block into the running hash state. -/
def sha256Compress (h : List Nat) (block : List Nat) : List Nat :=
  let ws := sha256Schedule block
  match (ws.zip sha256K).foldl sha256Round
    (h.getD 0 0, h.getD 1 0, h.getD 2 0, h.getD 3 0,
     h.getD 4 0, h.getD 5 0, h.getD 6 0, h.getD 7 0) with
  | (a, b, c, d, e, f, g, hh) =>
    [w32 (h.getD 0 0 + a), w32 (h.getD 1 0 + b), w32 (h.getD 2 0 + c), w32 (h.getD 3 0 + d),
     w32 (h.getD 4 0 + e), w32 (h.getD 5 0 + f), w32 (h.getD 6 0 + g), w32 (h.getD 7 0 + hh)]

/-- SHA-256 digest of a byte list, as eight 32-bit words. -/
def sha256Words (msg : List Nat) : List Nat :=
  (sha256Blocks (sha256Pad msg)).foldl sha256Compress sha256H0

def hexDigit (n : Nat) : Char := if n < 10 then Char.ofNat (48 + n) else Char.ofNat (87 + n)

def wordToHex (w : Nat) : String :=
  String.mk ((List.range 8).map (fun i => hexDigit ((w >>> (4 * (7 - i))) % 16)))

/-- Lowercase hex digest (`.digest("hex")`). -/
def sha256Hex (msg : List Nat) : String :=
  String.join ((sha256Words msg).map wordToHex)

/-- UTF-8 bytes of a string; restricted to the ASCII strings this
development hashes, where UTF-8 is the identity on code points. -/
def strToBytes (s : String) : List Nat := s.data.map Char.toNat

/-! ## Cache key derivation (`src/lib/cache/key.ts`) -/

/-- `[...plan.datasetIds].sort()`: JS default sort is lexicographic on
the string encoding (code points, for the ASCII ids used here). -/
def sortStrings (l : List String) : List String :=
  l.insertionSort (fun a b => strLeB a b = true)

/-- JSON rendering of a bounding-box coordinate. JSON.stringify prints
the shortest round-trip decimal of the IEEE double; the embedding covers
the rationals with a finite decimal expansion (up to 17 digits), which
includes every coordinate literal appearing in this development. -/
def ratToJsonNum (q : ℚ) : String :=
  match (List.range 18).find? (fun f => ((q * (10 : ℚ) ^ f).den = 1)) with
  | some f =>
    let scaled : Int := (q * (10 : ℚ) ^ f).num
    (if q < 0 then "-" else "") ++ renderFixed f scaled.natAbs
  | none =>
    (if q < 0 then "-" else "") ++ Nat.repr q.num.natAbs ++ "/" ++ Nat.repr q.den

/-- JSON rendering of the normalized plan's `location` field. The named
case assumes a name with no JSON-escapable characters. -/
def serializeLocation : Location → String
  | .name s => "\"" ++ s ++ "\""
  | .bbox west south east north =>
    "[" ++ String.intercalate "," ([west, south, east, north].map ratToJsonNum) ++ "]"

/-- `JSON.stringify(normalizedPlan)` for the normalized plan built by
`generateCacheKey`: insertion-ordered keys `analysisType`, `datasets`
(the sorted `datasetIds`), `timeRange{start,end}`, `location`. -/
def serializeNormalizedPlan (plan : AnalysisPlan) : String :=
  "\x7b\"analysisType\":\"" ++ plan.analysisType ++ "\",\"datasets\":[" ++
  String.intercalate "," ((sortStrings plan.datasetIds).map (fun d => "\"" ++ d ++ "\"")) ++
  "],\"timeRange\":\x7b\"start\":\"" ++ plan.timeRange.start ++ "\",\"end\":\"" ++
  plan.timeRange.«end» ++ "\"\x7d,\"location\":" ++ serializeLocation plan.location ++ "\x7d"

/-- `generateCacheKey(plan)`: namespace prefix plus the first 16 hex
characters of the SHA-256 of the canonical serialization. -/
def generateCacheKey (plan : AnalysisPlan) : String :=
  "analysis:" ++ (sha256Hex (strToBytes (serializeNormalizedPlan plan))).take 16

/-! ## In-memory cache store (`src/unnamed/part_000`, `InMemoryCache`)

A JS `Map` is embedded as an association list in insertion order:
`Map.set` on an existing key updates it in place, otherwise appends;
`Map.delete` removes the (unique) entry with that key. Every operation
that reads the clock takes the current `Date.now()` value `now`. -/

structure CacheEntry (α : Type) where
  value : α
  timestamp : Int
  hits : Nat
deriving DecidableEq

structure InMemoryCache (α : Type) where
  entries : List (String × CacheEntry α)
  maxSize : Nat
  defaultTTL : Int
deriving DecidableEq

/-- A fresh cache; the source initializes `maxSize = 100` and
`defaultTTL = 60 * 60 * 1000`. -/
def newCache (α : Type) (maxSize : Nat := 100) : InMemoryCache α :=
  ⟨[], maxSize, 60 * 60 * 1000⟩

/-- `Map.prototype.set` on an association list. -/
def mapSet {α : Type} (l : List (String × CacheEntry α)) (k : String) (e : CacheEntry α) :
    List (String × CacheEntry α) :=
  if l.any (fun p => p.1 == k) then l.map (fun p => if p.1 == k then (k, e) else p)
  else l ++ [(k, e)]

/-- `Map.prototype.delete` on an association list (first occurrence). -/
def removeKey {α : Type} : List (String × CacheEntry α) → String → List (String × CacheEntry α)
  | [], _ => []
  | p :: rest, k => if p.1 == k then rest else p :: removeKey rest k

/-- One step of the `evictOldest` scan over the running
`(oldestKey, oldestTime)` pair: update on a strictly smaller timestamp. -/
def oldScan {α : Type} (acc : Option String × Int) (p : String × CacheEntry α) :
    Option String × Int :=
  if p.2.timestamp < acc.2 then (some p.1, p.2.timestamp) else acc

/-- The scan of `evictOldest`: running `(oldestKey, oldestTime)` pair,
starting from `(null, Date.now())`. -/
def findOldest {α : Type} (now : Int) (l : List (String × CacheEntry α)) : Option String :=
  (l.foldl oldScan ((none : Option String), now)).1

/-- `InMemoryCache.evictOldest`. -/
def InMemoryCache.evictOldest {α : Type} (c : InMemoryCache α) (now : Int) : InMemoryCache α :=
  match findOldest now c.entries with
  | some k => { c with entries := removeKey c.entries k }
  | none => c

/-- `InMemoryCache.set`. -/
def InMemoryCache.set {α : Type} (c : InMemoryCache α) (k : String) (v : α) (now : Int) :
    InMemoryCache α :=
  let c' := if c.entries.length ≥ c.maxSize then c.evictOldest now else c
  { c' with entries := mapSet c'.entries k ⟨v, now, 0⟩ }

/-- `InMemoryCache.get`: TTL-expired entries are deleted and report a
miss; a hit increments the entry's counter. -/
def InMemoryCache.get {α : Type} (c : InMemoryCache α) (k : String) (now : Int) :
    Option α × InMemoryCache α :=
  match c.entries.find? (fun p => p.1 == k) with
  | none => (none, c)
  | some p =>
    if now - p.2.timestamp > c.defaultTTL then
      (none, { c with entries := removeKey c.entries k })
    else
      (some p.2.value,
       { c with entries := c.entries.map (fun q =>
          if q.1 == k then (q.1, { q.2 with hits := q.2.hits + 1 }) else q) })

/-- `InMemoryCache.has`. -/
def InMemoryCache.has {α : Type} (c : InMemoryCache α) (k : String) (now : Int) :
    Bool × InMemoryCache α :=
  match c.entries.find? (fun p => p.1 == k) with
  | none => (false, c)
  | some p =>
    if now - p.2.timestamp > c.defaultTTL then
      (false, { c with entries := removeKey c.entries k })
    else (true, c)

/-- `InMemoryCache.delete`. -/
def InMemoryCache.delete {α : Type} (c : InMemoryCache α) (k : String) :
    Bool × InMemoryCache α :=
  (c.entries.any (fun p => p.1 == k), { c with entries := removeKey c.entries k })

/-- `InMemoryCache.clear`. -/
def InMemoryCache.clear {α : Type} (c : InMemoryCache α) : InMemoryCache α :=
  { c with entries := [] }

/-! ## Geocoding resolver (`src/unnamed/part_000`, `geocodeLocation`) -/

/-- A `[west, south, east, north]` bounding box. -/
def BBox : Type := ℚ × ℚ × ℚ × ℚ

instance : DecidableEq BBox := by unfold BBox; infer_instance

/-- `FALLBACK_LOCATIONS`: the static table backing the remote geocoder. -/
def FALLBACK_LOCATIONS : List (String × BBox) :=
  [("Montreal", (-739/10, 454/10, -735/10, 457/10)),
   ("New York", (-743/10, 406/10, -737/10, 409/10)),
   ("Toronto", (-796/10, 436/10, -791/10, 439/10)),
   ("Vancouver", (-1233/10, 492/10, -1229/10, 494/10)),
   ("Los Angeles", (-1187/10, 337/10, -1181/10, 343/10)),
   ("Chicago", (-880/10, 416/10, -875/10, 420/10)),
   ("London", (-5/10, 513/10, 3/10, 517/10)),
   ("Paris", (22/10, 488/10, 25/10, 490/10)),
   ("Berlin", (132/10, 524/10, 136/10, 526/10)),
   ("Madrid", (-38/10, 403/10, -36/10, 405/10)),
   ("Rome", (124/10, 418/10, 126/10, 420/10)),
   ("Amsterdam", (48/10, 523/10, 50/10, 524/10)),
   ("Tokyo", (1395/10, 355/10, 1399/10, 358/10)),
   ("Osaka", (1353/10, 345/10, 1357/10, 348/10)),
   ("Beijing", (1162/10, 398/10, 1166/10, 401/10)),
   ("Shanghai", (1213/10, 311/10, 1217/10, 314/10)),
   ("Seoul", (1268/10, 374/10, 1272/10, 377/10)),
   ("Mumbai", (727/10, 189/10, 729/10, 193/10)),
   ("Singapore", (1036/10, 12/10, 1040/10, 15/10)),
   ("São Paulo", (-468/10, -237/10, -464/10, -234/10)),
   ("Rio de Janeiro", (-434/10, -230/10, -431/10, -228/10)),
   ("Buenos Aires", (-585/10, -347/10, -583/10, -345/10)),
   ("Sydney", (1509/10, -340/10, 1513/10, -337/10)),
   ("Melbourne", (1448/10, -380/10, 1451/10, -377/10))]

/-- The error message thrown when neither the remote lookup nor the
fallback table resolves a name. -/
def locationNotFoundMsg (normalizedName : String) : String :=
  "Unable to find location \"" ++ normalizedName ++
  "\". Please try a different location or provide coordinates as [west, south, east, north]."

/-- `geocodeLocation(locationName)`, embedded over the in-memory
geocoding result cache (an association list) and the single remote
Nominatim call (`remote`: `.ok bbox` on success, `.error` covering a
non-ok response, a network failure, or an empty result list — all routed
through the same `catch`). Returns the bbox and the updated cache. -/
def geocodeLocation (cache : List (String × BBox)) (remote : Except String BBox)
    (locationName : String) : Except String (BBox × List (String × BBox)) :=
  let normalizedName := strTrim locationName
  match cache.find? (fun p => p.1 == normalizedName) with
  | some p => .ok (p.2, cache)
  | none =>
    match remote with
    | .ok bbox => .ok (bbox, cache ++ [(normalizedName, bbox)])
    | .error _ =>
      match FALLBACK_LOCATIONS.find? (fun p => p.1 == normalizedName) with
      | some p => .ok (p.2, cache ++ [(normalizedName, p.2)])
      | none => .error (locationNotFoundMsg normalizedName)

/-- `pat` occurs as a contiguous substring of `l`
(used to express "the message enumerates a name"). -/
def listContainsSub (l pat : List Char) : Bool :=
  (List.range (l.length + 1)).any (fun i => pat.isPrefixOf (l.drop i))

/-- The claim-shape predicate for the resolver failure: the message
enumerates every name the fallback table knows. -/
def msgEnumeratesFallbackNames (msg : String) : Bool :=
  FALLBACK_LOCATIONS.all (fun p => listContainsSub msg.data p.1.data)

/-! ## Air-quality change detection (`src/lib/gee/workflows/air_quality.ts`) -/

/-- The scalar percent computation of `executeAirQualityChange` once the
region reduction over the difference composite has evaluated:
`const change = result[bandName] || 0;`
`const changePercent = (change / result[bandName]) * 100;`
`bandValue` is the numeric reduced value `result[bandName]` (the mean of
`after − before` over the AOI); `|| 0` replaces the falsy `0` by `0`. -/
def airQualityChangePercent (bandValue : ℚ) : ℚ :=
  let change := if bandValue = 0 then 0 else bandValue
  (change / bandValue) * 100

/-! ## Helper lemmas for the guardrail engine -/

theorem validateTimeRange_error_isSome (now : Int) (plan : AnalysisPlan) :
    (validateTimeRange now plan).valid = false →
    ((validateTimeRange now plan).error).isSome := by
  simp only [validateTimeRange]
  repeat' split
  all_goals (intro h; simp_all)

theorem validateAnalysisType_error_isSome (plan : AnalysisPlan) :
    (validateAnalysisType plan).valid = false →
    ((validateAnalysisType plan).error).isSome := by
  simp only [validateAnalysisType]
  repeat' split
  all_goals (intro h; simp_all)

theorem validateDatasets_error_isSome (plan : AnalysisPlan) :
    (validateDatasets plan).valid = false →
    ((validateDatasets plan).error).isSome := by
  simp only [validateDatasets]
  repeat' split
  all_goals (intro h; simp_all)

theorem validateLocation_error_isSome (plan : AnalysisPlan) :
    (validateLocation plan).valid = false →
    ((validateLocation plan).error).isSome := by
  simp only [validateLocation]
  repeat' split
  all_goals (intro h; simp_all)

theorem guardrailChecks_error_isSome (now : Int) (plan : AnalysisPlan) :
    ∀ r ∈ guardrailChecks now plan, r.valid = false → r.error.isSome := by
  intro r hr
  simp only [guardrailChecks, List.mem_cons, List.not_mem_nil, or_false] at hr
  rcases hr with rfl | rfl | rfl | rfl
  · exact validateTimeRange_error_isSome now plan
  · exact validateAnalysisType_error_isSome plan
  · exact validateDatasets_error_isSome plan
  · exact validateLocation_error_isSome plan

theorem foldl_collect_errors (l : List ValidationResult) (init : List String) :
    l.foldl
      (fun acc r =>
        if ¬ r.valid then
          match r.error with
          | some e => acc ++ [e]
          | none => acc
        else acc) init =
    init ++ (l.filter (fun r => !r.valid)).filterMap ValidationResult.error := by
  induction l generalizing init with
  | nil => simp
  | cons r rest ih =>
    rw [List.foldl_cons, ih]
    by_cases hv : r.valid = true
    · simp [hv]
    · simp only [Bool.not_eq_true] at hv
      cases herr : r.error with
      | some e => simp [hv, herr]
      | none => simp [hv, herr]

theorem validateAnalysisPlan_eq (now : Int) (plan : AnalysisPlan) :
    validateAnalysisPlan now plan =
      (if (((guardrailChecks now plan).filter (fun r => !r.valid)).filterMap
            ValidationResult.error).length > 0 then
        (⟨false, some (String.intercalate " "
            (((guardrailChecks now plan).filter (fun r => !r.valid)).filterMap
              ValidationResult.error)),
          (guardrailChecks now plan).foldl (fun acc r => acc ++ r.warnings) []⟩ :
          ValidationResult)
      else
        ⟨true, none, (guardrailChecks now plan).foldl (fun acc r => acc ++ r.warnings) []⟩) := by
  simp only [validateAnalysisPlan]
  rw [foldl_collect_errors]
  simp

/-! ## Order properties of the code-unit comparison used by the sort -/

theorem charListLe_total : ∀ l1 l2 : List Char,
    charListLe l1 l2 = true ∨ charListLe l2 l1 = true := by
  intro l1
  induction l1 with
  | nil => intro l2; left; rfl
  | cons a as ih =>
    intro l2
    cases l2 with
    | nil => right; rfl
    | cons b bs =>
      simp only [charListLe]
      rcases Nat.lt_trichotomy a.toNat b.toNat with h | h | h
      · left; rw [if_pos h]
      · rw [if_neg (by omega), if_neg (by omega), if_neg (by omega), if_neg (by omega)]
        exact ih bs
      · right; rw [if_pos h]

theorem charListLe_trans : ∀ l1 l2 l3 : List Char,
    charListLe l1 l2 = true → charListLe l2 l3 = true → charListLe l1 l3 = true := by
  intro l1
  induction l1 with
  | nil => intro l2 l3 _ _; rfl
  | cons a as ih =>
    intro l2 l3 h12 h23
    cases l2 with
    | nil => simp [charListLe] at h12
    | cons b bs =>
      cases l3 with
      | nil => simp [charListLe] at h23
      | cons c cs =>
        simp only [charListLe] at h12 h23 ⊢
        rcases Nat.lt_trichotomy a.toNat b.toNat with hab | hab | hab
        · rcases Nat.lt_trichotomy b.toNat c.toNat with hbc | hbc | hbc
          · rw [if_pos (by omega)]
          · rw [if_pos (by omega)]
          · rw [if_neg (by omega), if_pos hbc] at h23; cases h23
        · rcases Nat.lt_trichotomy b.toNat c.toNat with hbc | hbc | hbc
          · rw [if_pos (by omega)]
          · rw [if_neg (by omega), if_neg (by omega)]
            rw [if_neg (by omega), if_neg (by omega)] at h12
            rw [if_neg (by omega), if_neg (by omega)] at h23
            exact ih bs cs h12 h23
          · rw [if_neg (by omega), if_pos hbc] at h23; cases h23
        · rw [if_neg (by omega), if_pos hab] at h12; cases h12

theorem charListLe_antisymm : ∀ l1 l2 : List Char,
    charListLe l1 l2 = true → charListLe l2 l1 = true → l1 = l2 := by
  intro l1
  induction l1 with
  | nil =>
    intro l2 _ h21
    cases l2 with
    | nil => rfl
    | cons b bs => simp [charListLe] at h21
  | cons a as ih =>
    intro l2 h12 h21
    cases l2 with
    | nil => simp [charListLe] at h12
    | cons b bs =>
      simp only [charListLe] at h12 h21
      rcases Nat.lt_trichotomy a.toNat b.toNat with hab | hab | hab
      · rw [if_neg (by omega), if_pos hab] at h21; cases h21
      · rw [if_neg (by omega), if_neg (by omega)] at h12
        rw [if_neg (by omega), if_neg (by omega)] at h21
        have hd : a = b := Char.eq_of_val_eq (UInt32.ext hab)
        rw [hd, ih bs h12 h21]
      · rw [if_neg (by omega), if_pos hab] at h12; cases h12

instance : IsTotal String (fun a b => strLeB a b = true) :=
  ⟨fun a b => charListLe_total a.data b.data⟩

instance : IsTrans String (fun a b => strLeB a b = true) :=
  ⟨fun a b c => charListLe_trans a.data b.data c.data⟩

instance : IsAntisymm String (fun a b => strLeB a b = true) := by
  refine ⟨fun a b h1 h2 => ?_⟩
  cases a with
  | mk la =>
    cases b with
    | mk lb =>
      have := charListLe_antisymm la lb h1 h2
      rw [this]

theorem sortStrings_perm_eq {l1 l2 : List String} (h : l1.Perm l2) :
    sortStrings l1 = sortStrings l2 := by
  unfold sortStrings
  exact List.eq_of_perm_of_sorted
    ((List.perm_insertionSort _ l1).trans (h.trans (List.perm_insertionSort _ l2).symm))
    (List.sorted_insertionSort _ l1) (List.sorted_insertionSort _ l2)

/-! ## Claim C3 -/

/-- C3: the cache key is invariant under permutation of `datasetIds`
(they are sorted before serialization and hashing); plans differing only
in `location`, or only in `timeRange`, produce different keys. -/
theorem cacheKey_fingerprint_determinism :
    (∀ (plan : AnalysisPlan) (l : List String), plan.datasetIds.Perm l →
      generateCacheKey plan = generateCacheKey
        ⟨plan.analysisType, plan.datasets, l, plan.timeRange, plan.location⟩) ∧
    generateCacheKey ⟨"ndvi_timeseries", [], ["sentinel2", "modis"],
        ⟨"2024-01-01", "2024-06-30"⟩, .name "Tokyo"⟩ ≠
      generateCacheKey ⟨"ndvi_timeseries", [], ["sentinel2", "modis"],
        ⟨"2024-01-01", "2024-06-30"⟩, .name "Osaka"⟩ ∧
    generateCacheKey ⟨"ndvi_timeseries", [], ["sentinel2", "modis"],
        ⟨"2024-01-01", "2024-06-30"⟩, .name "Tokyo"⟩ ≠
      generateCacheKey ⟨"ndvi_timeseries", [], ["sentinel2", "modis"],
        ⟨"2024-01-01", "2024-07-30"⟩, .name "Tokyo"⟩ := by
  refine ⟨?_, by decide, by decide⟩
  intro plan l h
  unfold generateCacheKey serializeNormalizedPlan
  rw [sortStrings_perm_eq h]

/-- Witness for C3: permuting a concrete two-element `datasetIds` list
leaves the key unchanged. -/
theorem cacheKey_fingerprint_determinism_witness :
    (["sentinel2", "modis"] : List String).Perm ["modis", "sentinel2"] ∧
    generateCacheKey ⟨"ndvi_timeseries", [], ["sentinel2", "modis"],
        ⟨"2024-01-01", "2024-06-30"⟩, .name "Tokyo"⟩ =
      generateCacheKey ⟨"ndvi_timeseries", [], ["modis", "sentinel2"],
        ⟨"2024-01-01", "2024-06-30"⟩, .name "Tokyo"⟩ :=
  ⟨by decide,
   (cacheKey_fingerprint_determinism.1
     ⟨"ndvi_timeseries", [], ["sentinel2", "modis"],
       ⟨"2024-01-01", "2024-06-30"⟩, .name "Tokyo"⟩
     ["modis", "sentinel2"] (by decide))⟩

/-! ## Claim C1 -/

/-- C1: `validateAnalysisPlan` evaluates all four checks regardless of
earlier failures; the result is valid exactly when no check fails, and
when any check fails the result is invalid with `error` the join (by a
single space) of every failing check's message. -/
theorem guardrails_evaluate_all (now : Int) (plan : AnalysisPlan) :
    ((validateAnalysisPlan now plan).valid = true ↔
      ∀ r ∈ guardrailChecks now plan, r.valid = true) ∧
    ((∃ r ∈ guardrailChecks now plan, r.valid = false) →
      (validateAnalysisPlan now plan).valid = false ∧
      (validateAnalysisPlan now plan).error =
        some (String.intercalate " "
          (((guardrailChecks now plan).filter (fun r => !r.valid)).filterMap
            ValidationResult.error))) := by
  have hchar : (((guardrailChecks now plan).filter (fun r => !r.valid)).filterMap
      ValidationResult.error).length > 0 ↔
      ∃ r ∈ guardrailChecks now plan, r.valid = false := by
    constructor
    · intro hlen
      rcases List.exists_mem_of_length_pos hlen with ⟨e, he⟩
      rcases List.mem_filterMap.mp he with ⟨r, hrmem, _⟩
      rcases List.mem_filter.mp hrmem with ⟨hrL, hrv⟩
      exact ⟨r, hrL, by simpa using hrv⟩
    · rintro ⟨r, hrL, hrv⟩
      have hsome := guardrailChecks_error_isSome now plan r hrL hrv
      rcases Option.isSome_iff_exists.mp hsome with ⟨e, he⟩
      have : e ∈ ((guardrailChecks now plan).filter (fun r => !r.valid)).filterMap
          ValidationResult.error :=
        List.mem_filterMap.mpr ⟨r, List.mem_filter.mpr ⟨hrL, by simp [hrv]⟩, he⟩
      exact List.length_pos.mpr (List.ne_nil_of_mem this)
  rw [validateAnalysisPlan_eq]
  by_cases hE : (((guardrailChecks now plan).filter (fun r => !r.valid)).filterMap
      ValidationResult.error).length > 0
  · rw [if_pos hE]
    rcases hchar.mp hE with ⟨r, hrL, hrv⟩
    constructor
    · simp only [ValidationResult.valid]
      constructor
      · intro h; cases h
      · intro hall
        exact absurd (hall r hrL) (by simp [hrv])
    · intro _; exact ⟨rfl, rfl⟩
  · rw [if_neg hE]
    constructor
    · simp only [ValidationResult.valid, true_iff]
      intro r hrL
      by_contra hrv
      exact hE (hchar.mpr ⟨r, hrL, by simpa using hrv⟩)
    · intro hex
      exact absurd (hchar.mpr hex) hE

/-- Witness for C1: a plan failing two independent checks (unsupported
analysis type and an oversized bounding box) yields the joined two-part
message. -/
theorem guardrails_evaluate_all_witness :
    (∃ r ∈ guardrailChecks (msSinceEpoch 2025 1 1)
        ⟨"foo", ["sentinel2"], ["sentinel2"], ⟨"2024-01-01", "2024-03-01"⟩,
          .bbox 0 0 20 20⟩, r.valid = false) ∧
    (validateAnalysisPlan (msSinceEpoch 2025 1 1)
        ⟨"foo", ["sentinel2"], ["sentinel2"], ⟨"2024-01-01", "2024-03-01"⟩,
          .bbox 0 0 20 20⟩).valid = false ∧
    (validateAnalysisPlan (msSinceEpoch 2025 1 1)
        ⟨"foo", ["sentinel2"], ["sentinel2"], ⟨"2024-01-01", "2024-03-01"⟩,
          .bbox 0 0 20 20⟩).error =
      some ("Unsupported analysis type: \"foo\". Supported types: ndvi_change, ndvi_timeseries, ndvi_anomaly, seasonal_trend Area of interest too large. Maximum: 10° x 10°. Your request: 20.00° x 20.00°.") := by
  have hex : ∃ r ∈ guardrailChecks (msSinceEpoch 2025 1 1)
      ⟨"foo", ["sentinel2"], ["sentinel2"], ⟨"2024-01-01", "2024-03-01"⟩,
        .bbox 0 0 20 20⟩, r.valid = false := by
    refine ⟨validateAnalysisType
      ⟨"foo", ["sentinel2"], ["sentinel2"], ⟨"2024-01-01", "2024-03-01"⟩,
        .bbox 0 0 20 20⟩, ?_, by with_unfolding_all rfl⟩
    simp [guardrailChecks]
  have h := (guardrails_evaluate_all (msSinceEpoch 2025 1 1)
    ⟨"foo", ["sentinel2"], ["sentinel2"], ⟨"2024-01-01", "2024-03-01"⟩,
      .bbox 0 0 20 20⟩).2 hex
  exact ⟨hex, h.1, h.2.trans (by with_unfolding_all rfl)⟩

/-! ## Claim C5 -/

/-- C5: for a plan whose dates parse, with start before end and end not
in the future, the time-range check accepts a span of exactly
`5 * 365` calendar days (the configured maximum of 5 years under the
code's span metric, day difference divided by the 365-day year) and
rejects a span one day longer. -/
theorem timeRange_five_year_boundary (now : Int) (plan : AnalysisPlan)
    (y1 m1 d1 y2 m2 d2 : Nat)
    (hs : parseDate plan.timeRange.start = some (y1, m1, d1))
    (he : parseDate plan.timeRange.«end» = some (y2, m2, d2))
    (hnow : msSinceEpoch y2 m2 d2 ≤ now) :
    (dayNumber y2 m2 d2 = dayNumber y1 m1 d1 + 5 * 365 →
      (validateTimeRange now plan).valid = true) ∧
    (dayNumber y2 m2 d2 = dayNumber y1 m1 d1 + (5 * 365 + 1) →
      (validateTimeRange now plan).valid = false) := by
  have hms : ∀ k : Nat, dayNumber y2 m2 d2 = dayNumber y1 m1 d1 + k →
      msSinceEpoch y2 m2 d2 - msSinceEpoch y1 m1 d1 = (k : Int) * 86400000 := by
    intro k hk
    unfold msSinceEpoch
    have hcast : (dayNumber y2 m2 d2 : Int) = (dayNumber y1 m1 d1 : Int) + (k : Int) := by
      exact_mod_cast hk
    rw [hcast]; ring
  constructor
  · intro h1
    have hdiff := hms (5 * 365) h1
    simp only [validateTimeRange, parseDateMs, hs, he, Option.map_some']
    rw [if_neg (by omega : ¬ msSinceEpoch y1 m1 d1 ≥ msSinceEpoch y2 m2 d2)]
    rw [if_neg (by
      rw [show msSinceEpoch y2 m2 d2 - msSinceEpoch y1 m1 d1 = (1825 : Int) * 86400000 by
        rw [hdiff]; norm_num]
      unfold MAX_TIME_RANGE_YEARS
      push_cast
      norm_num)]
    rw [if_neg (by omega : ¬ msSinceEpoch y2 m2 d2 > now)]
    split <;> rfl
  · intro h1
    have hdiff := hms (5 * 365 + 1) h1
    simp only [validateTimeRange, parseDateMs, hs, he, Option.map_some']
    rw [if_neg (by omega : ¬ msSinceEpoch y1 m1 d1 ≥ msSinceEpoch y2 m2 d2)]
    rw [if_pos (by
      rw [show msSinceEpoch y2 m2 d2 - msSinceEpoch y1 m1 d1 = (1826 : Int) * 86400000 by
        rw [hdiff]; norm_num]
      unfold MAX_TIME_RANGE_YEARS
      push_cast
      norm_num)]

/-- Witness for C5: 2019-01-02 → 2024-01-01 is 1825 days (accepted),
2019-01-02 → 2024-01-02 is 1826 days (rejected), although naive year
subtraction calls the latter exactly five years. -/
theorem timeRange_five_year_boundary_witness :
    parseDate "2019-01-02" = some (2019, 1, 2) ∧
    dayNumber 2024 1 1 = dayNumber 2019 1 2 + 5 * 365 ∧
    dayNumber 2024 1 2 = dayNumber 2019 1 2 + (5 * 365 + 1) ∧
    (validateTimeRange (msSinceEpoch 2025 1 1)
      ⟨"ndvi_timeseries", ["sentinel2"], ["sentinel2"],
        ⟨"2019-01-02", "2024-01-01"⟩, .name "Tokyo"⟩).valid = true ∧
    (validateTimeRange (msSinceEpoch 2025 1 1)
      ⟨"ndvi_timeseries", ["sentinel2"], ["sentinel2"],
        ⟨"2019-01-02", "2024-01-02"⟩, .name "Tokyo"⟩).valid = false :=
  ⟨by decide, by decide, by decide,
   (timeRange_five_year_boundary (msSinceEpoch 2025 1 1)
      ⟨"ndvi_timeseries", ["sentinel2"], ["sentinel2"],
        ⟨"2019-01-02", "2024-01-01"⟩, .name "Tokyo"⟩
      2019 1 2 2024 1 1 (by decide) (by decide) (by decide)).1 (by decide),
   (timeRange_five_year_boundary (msSinceEpoch 2025 1 1)
      ⟨"ndvi_timeseries", ["sentinel2"], ["sentinel2"],
        ⟨"2019-01-02", "2024-01-02"⟩, .name "Tokyo"⟩
      2019 1 2 2024 1 2 (by decide) (by decide) (by decide)).2 (by decide)⟩

/-! ## Helper lemmas for the bucketed executor -/

theorem filter_length_partition {α : Type} (p : α → Bool) (l : List α) :
    (l.filter p).length + (l.filter (fun a => !(p a))).length = l.length := by
  induction l with
  | nil => simp
  | cons a rest ih =>
    cases h : p a
    · simp only [List.filter_cons, h, Bool.not_false, if_neg, Bool.false_eq_true,
        if_false, if_true, if_pos, List.length_cons]
      omega
    · simp only [List.filter_cons, h, Bool.not_true, Bool.false_eq_true, if_false,
        if_true, List.length_cons]
      omega

theorem ndvi_filterMap_labels (fetch : String → Except String (Option ℚ)) :
    ∀ months : List String,
    (∀ m ∈ months, bucketNoCoverage (fetch m) = false) →
    (months.filterMap (ndviMonthPoint fetch)).map TimeSeriesPoint.label =
      (months.filter (fun m => bucketOk (fetch m))).map some := by
  intro months
  induction months with
  | nil => intro _; rfl
  | cons m ms ih =>
    intro h
    have hm := h m (List.mem_cons_self m ms)
    have hrest := fun x hx => h x (List.mem_cons_of_mem m hx)
    cases hf : fetch m with
    | ok v =>
      cases v with
      | some q =>
        simp [List.filterMap_cons, List.filter_cons, ndviMonthPoint, bucketOk, hf, ih hrest]
      | none =>
        rw [hf] at hm
        simp [bucketNoCoverage] at hm
    | error e =>
      simp [List.filterMap_cons, List.filter_cons, ndviMonthPoint, bucketOk, hf, ih hrest]

/-! ## Claim C2 -/

/-- C2: over six monthly buckets, if exactly one bucket's remote
reduction raises and every non-raising bucket returns a valid value,
then the executor returns (no exception escapes) a series of the five
remaining points in original chronological order; if all six buckets
raise, the executor raises the terminal no-valid-data error. -/
theorem ndvi_executor_partial_failure (fetch : String → Except String (Option ℚ))
    (tile : String) (startDate endDate : String)
    (h6 : (getMonthsBetweenDates startDate endDate).length = 6) :
    (((getMonthsBetweenDates startDate endDate).filter
        (fun m => !(bucketOk (fetch m)))).length = 1 →
      (∀ m ∈ getMonthsBetweenDates startDate endDate,
        bucketNoCoverage (fetch m) = false) →
      ∃ pts, executeNDVITimeSeries fetch (.ok tile) startDate endDate = .ok (pts, tile) ∧
        pts.length = 5 ∧
        pts.map TimeSeriesPoint.label =
          ((getMonthsBetweenDates startDate endDate).filter
            (fun m => bucketOk (fetch m))).map some) ∧
    ((∀ m ∈ getMonthsBetweenDates startDate endDate, bucketOk (fetch m) = false) →
      ∀ tileRes, executeNDVITimeSeries fetch tileRes startDate endDate =
        .error noValidDataMsg) := by
  constructor
  · intro hfail hnc
    have hlab := ndvi_filterMap_labels fetch (getMonthsBetweenDates startDate endDate) hnc
    have hpart := filter_length_partition
      (fun m => bucketOk (fetch m)) (getMonthsBetweenDates startDate endDate)
    have hoklen : ((getMonthsBetweenDates startDate endDate).filter
        (fun m => bucketOk (fetch m))).length = 5 := by omega
    have hlen : ((getMonthsBetweenDates startDate endDate).filterMap
        (ndviMonthPoint fetch)).length = 5 := by
      have hcg := congrArg List.length hlab
      simpa [hoklen] using hcg
    refine ⟨(getMonthsBetweenDates startDate endDate).filterMap (ndviMonthPoint fetch),
      ?_, hlen, hlab⟩
    simp only [executeNDVITimeSeries]
    rw [if_neg (by
      rw [List.isEmpty_iff]
      intro hnil
      rw [hnil] at hlen
      cases hlen)]
  · intro hall tileRes
    have hnil : (getMonthsBetweenDates startDate endDate).filterMap
        (ndviMonthPoint fetch) = [] := by
      rw [List.filterMap_eq_nil_iff]
      intro m hm
      have := hall m hm
      cases hf : fetch m with
      | ok v => rw [hf] at this; simp [bucketOk] at this
      | error e => simp [ndviMonthPoint, hf]
    simp only [executeNDVITimeSeries]
    rw [hnil]
    rfl

/-- Witness for C2: over 2024-01..2024-06, a fetch that raises exactly
for February yields a five-point ordered series; a fetch that always
raises yields the terminal error. -/
theorem ndvi_executor_partial_failure_witness :
    (getMonthsBetweenDates "2024-01-01" "2024-06-30").length = 6 ∧
    ((getMonthsBetweenDates "2024-01-01" "2024-06-30").filter
      (fun m => !(bucketOk ((fun ym => if ym == "2024-02" then
          (Except.error "computation timed out" : Except String (Option ℚ))
        else Except.ok (some (1/2 : ℚ))) m)))).length = 1 ∧
    (∃ pts, executeNDVITimeSeries
        (fun ym => if ym == "2024-02" then
          (Except.error "computation timed out" : Except String (Option ℚ))
         else Except.ok (some (1/2 : ℚ)))
        (.ok "https://tiles.example/ndvi") "2024-01-01" "2024-06-30" =
        .ok (pts, "https://tiles.example/ndvi") ∧
      pts.length = 5 ∧
      pts.map TimeSeriesPoint.label =
        ((getMonthsBetweenDates "2024-01-01" "2024-06-30").filter
          (fun m => bucketOk ((fun ym => if ym == "2024-02" then
              (Except.error "computation timed out" : Except String (Option ℚ))
            else Except.ok (some (1/2 : ℚ))) m))).map some) ∧
    executeNDVITimeSeries
      (fun _ => (Except.error "quota exceeded" : Except String (Option ℚ)))
      (.error "getMapId failed") "2024-01-01" "2024-06-30" = .error noValidDataMsg :=
  ⟨by decide, by decide,
   (ndvi_executor_partial_failure
     (fun ym => if ym == "2024-02" then
        (Except.error "computation timed out" : Except String (Option ℚ))
      else Except.ok (some (1/2 : ℚ)))
     "https://tiles.example/ndvi" "2024-01-01" "2024-06-30" (by decide)).1
     (by decide) (by decide),
   (ndvi_executor_partial_failure
     (fun _ => (Except.error "quota exceeded" : Except String (Option ℚ)))
     "unused" "2024-01-01" "2024-06-30" (by decide)).2
     (by decide) (.error "getMapId failed")⟩

/-! ## Claim C6 -/

/-- C6: partitioning 2024-01-01..2024-06-30 into monthly buckets yields
exactly 6 buckets; each bucket's end boundary is the true last calendar
day of its month computed from the actual month and year, so February
2024's bucket end includes the Feb-29 leap day. -/
theorem monthly_bucketing_leap_aware :
    getMonthsBetweenDates "2024-01-01" "2024-06-30" =
      ["2024-01", "2024-02", "2024-03", "2024-04", "2024-05", "2024-06"] ∧
    (getMonthsBetweenDates "2024-01-01" "2024-06-30").length = 6 ∧
    (getMonthsBetweenDates "2024-01-01" "2024-06-30").map
        (fun ym => (createMonthlyCompositeWindow ym).2) =
      ["2024-01-31", "2024-02-29", "2024-03-31", "2024-04-30", "2024-05-31", "2024-06-30"] ∧
    (createMonthlyCompositeWindow "2024-02").2 = "2024-02" ++ "-" ++
      Nat.repr (daysInMonth 2024 2) ∧
    daysInMonth 2024 2 = 29 := by
  refine ⟨by decide, by decide, by decide, by decide, by decide⟩

/-! ## Claim C7 -/

/-- C7: for the series `[0.5, 0.6, 0.4, 0.7]` the statistics aggregator
returns mean 0.55, min 0.4, max 0.7 and trend `"increasing (+40.0%)"`;
in general the trend label is the first-vs-last percent-change
classification with symmetric ±5% thresholds, formatted with a signed
`toFixed(1)` percentage. -/
theorem statistics_aggregator_values :
    ((computeStats [⟨"2024-01-15", 1/2, none⟩, ⟨"2024-02-15", 3/5, none⟩,
        ⟨"2024-03-15", 2/5, none⟩, ⟨"2024-04-15", 7/10, none⟩]).map
      (fun st => (st.mean, st.min, st.max, st.trend))) =
      some (11/20, 2/5, 7/10, "increasing (+40.0%)") ∧
    ∀ (p0 : TimeSeriesPoint) (rest : List TimeSeriesPoint),
      (computeStats (p0 :: rest)).map SummaryStats.trend =
        some (trendLabelSpec (trendPercentChange ((p0 :: rest).map TimeSeriesPoint.value)) ++
          " (" ++
          (if trendPercentChange ((p0 :: rest).map TimeSeriesPoint.value) > 0 then "+" else "")
          ++ toFixed 1 (trendPercentChange ((p0 :: rest).map TimeSeriesPoint.value)) ++ "%)") := by
  constructor
  · with_unfolding_all rfl
  · intro p0 rest
    simp [computeStats, trendString, trendLabelSpec]

/-! ## Claim C9 -/

/-- C9: the air-quality change-detection percent divides the reduced
delta by the very field the delta was read from, so whenever that
denominator (being equal to the delta's source field) is nonzero the
result is structurally forced to 100%. -/
theorem airQuality_changePercent_forced (bandValue : ℚ) (h : bandValue ≠ 0) :
    airQualityChangePercent bandValue = 100 := by
  unfold airQualityChangePercent
  rw [if_neg h]
  show bandValue / bandValue * 100 = 100
  rw [div_self h, one_mul]

/-- Witness for C9 at the concrete reduced value 7/3. -/
theorem airQuality_changePercent_forced_witness :
    (7 / 3 : ℚ) ≠ 0 ∧ airQualityChangePercent (7 / 3) = 100 :=
  ⟨by norm_num, airQuality_changePercent_forced (7 / 3) (by norm_num)⟩

/-! ## Claim C8 (corrected) -/

/-- C8 counterexample: for the name "Atlantis" (remote lookup fails, name
absent from the fallback table) the resolver does fail, but its message
does not enumerate the fallback table's names — it does not even contain
"Montreal", the table's first entry. -/
theorem geocode_message_counterexample :
    geocodeLocation [] (.error "Nominatim API error: 500") "Atlantis" =
      .error (locationNotFoundMsg "Atlantis") ∧
    msgEnumeratesFallbackNames (locationNotFoundMsg "Atlantis") = false ∧
    listContainsSub (locationNotFoundMsg "Atlantis").data "Montreal".data = false ∧
    "Montreal" ∈ FALLBACK_LOCATIONS.map Prod.fst := by
  refine ⟨rfl, by decide, by decide, by decide⟩

/-- C8 amended: for every location name that the remote lookup fails to
resolve and that is absent from both the memo cache and the static
fallback table, the resolver fails with the fixed not-found error that
names the failing location and suggests different input or explicit
coordinates (it does not enumerate the fallback names). -/
theorem geocode_unknown_name_error (cache : List (String × BBox)) (err : String)
    (name : String)
    (hc : cache.find? (fun p => p.1 == strTrim name) = none)
    (hf : FALLBACK_LOCATIONS.find? (fun p => p.1 == strTrim name) = none) :
    geocodeLocation cache (.error err) name = .error (locationNotFoundMsg (strTrim name)) := by
  simp only [geocodeLocation]
  rw [hc, hf]

/-- Witness for the amended C8 at the name "Atlantis" with an empty memo
cache and a failed remote call. -/
theorem geocode_unknown_name_error_witness :
    ([] : List (String × BBox)).find? (fun p => p.1 == strTrim "Atlantis") = none ∧
    FALLBACK_LOCATIONS.find? (fun p => p.1 == strTrim "Atlantis") = none ∧
    geocodeLocation [] (.error "fetch failed") "Atlantis" =
      .error (locationNotFoundMsg (strTrim "Atlantis")) :=
  ⟨by decide, by decide,
   geocode_unknown_name_error [] "fetch failed" "Atlantis" (by decide) (by decide)⟩

/-! ## Helper lemmas for the in-memory cache -/

theorem any_key_false_iff {α : Type} (l : List (String × CacheEntry α)) (k : String) :
    l.any (fun p => p.1 == k) = false ↔ k ∉ l.map Prod.fst := by
  rw [Bool.eq_false_iff]
  simp only [ne_eq, List.any_eq_true, beq_iff_eq, List.mem_map, not_exists, not_and]

theorem mapSet_length_of_mem {α : Type} (l : List (String × CacheEntry α)) (k : String)
    (e : CacheEntry α) (h : l.any (fun p => p.1 == k) = true) :
    (mapSet l k e).length = l.length := by
  simp [mapSet, h]

theorem mapSet_append_of_fresh {α : Type} (l : List (String × CacheEntry α)) (k : String)
    (e : CacheEntry α) (h : l.any (fun p => p.1 == k) = false) :
    mapSet l k e = l ++ [(k, e)] := by
  simp [mapSet, h]

theorem removeKey_length_le {α : Type} :
    ∀ (l : List (String × CacheEntry α)) (k : String),
      (removeKey l k).length ≤ l.length := by
  intro l k
  induction l with
  | nil => simp [removeKey]
  | cons p rest ih =>
    cases h : (p.1 == k) with
    | true =>
      simp [removeKey, h]
    | false =>
      simp only [removeKey, h, Bool.false_eq_true, if_false, List.length_cons]
      omega

theorem removeKey_length_of_mem {α : Type} :
    ∀ (l : List (String × CacheEntry α)) (k : String), k ∈ l.map Prod.fst →
      (removeKey l k).length + 1 = l.length := by
  intro l k
  induction l with
  | nil => intro h; simp at h
  | cons p rest ih =>
    intro hmem
    cases h : (p.1 == k) with
    | true => simp [removeKey, h]
    | false =>
      have hpk : p.1 ≠ k := by simpa using h
      have hk : k ∈ rest.map Prod.fst := by
        rw [List.map_cons] at hmem
        rcases List.mem_cons.mp hmem with heq | htail
        · exact absurd heq.symm hpk
        · exact htail
      have := ih hk
      simp [removeKey, h]
      omega

theorem removeKey_cons_self {α : Type} (k : String) (e : CacheEntry α)
    (rest : List (String × CacheEntry α)) :
    removeKey ((k, e) :: rest) k = rest := by
  simp [removeKey]

theorem oldScan_foldl_isSome {α : Type} :
    ∀ (l : List (String × CacheEntry α)) (acc : Option String × Int),
      acc.1.isSome → (l.foldl oldScan acc).1.isSome := by
  intro l
  induction l with
  | nil => intro acc h; exact h
  | cons p rest ih =>
    intro acc h
    rw [List.foldl_cons]
    apply ih
    unfold oldScan
    split
    · rfl
    · exact h

theorem oldScan_foldl_mem {α : Type} :
    ∀ (l : List (String × CacheEntry α)) (acc : Option String × Int) (k : String),
      (l.foldl oldScan acc).1 = some k → acc.1 = some k ∨ k ∈ l.map Prod.fst := by
  intro l
  induction l with
  | nil => intro acc k h; exact Or.inl h
  | cons p rest ih =>
    intro acc k h
    rw [List.foldl_cons] at h
    rcases ih (oldScan acc p) k h with hacc | hmem
    · unfold oldScan at hacc
      split at hacc
      · right
        simp at hacc
        simp [hacc]
      · exact Or.inl hacc
    · right; exact List.mem_cons_of_mem _ hmem

theorem oldScan_foldl_trigger {α : Type} :
    ∀ (l : List (String × CacheEntry α)) (acc : Option String × Int),
      (∃ p ∈ l, p.2.timestamp < acc.2) → (l.foldl oldScan acc).1.isSome := by
  intro l
  induction l with
  | nil => rintro acc ⟨p, hp, _⟩; simp at hp
  | cons q rest ih =>
    rintro acc ⟨p, hp, hlt⟩
    rw [List.foldl_cons]
    by_cases hq : q.2.timestamp < acc.2
    · apply oldScan_foldl_isSome
      unfold oldScan
      rw [if_pos hq]
      rfl
    · have hacc : oldScan acc q = acc := by unfold oldScan; rw [if_neg hq]
      rw [hacc]
      rcases List.mem_cons.mp hp with rfl | htail
      · exact absurd hlt hq
      · exact ih acc ⟨p, htail, hlt⟩

theorem oldScan_foldl_keep {α : Type} :
    ∀ (l : List (String × CacheEntry α)) (acc : Option String × Int),
      (∀ p ∈ l, ¬ p.2.timestamp < acc.2) → l.foldl oldScan acc = acc := by
  intro l
  induction l with
  | nil => intro acc _; rfl
  | cons q rest ih =>
    intro acc h
    rw [List.foldl_cons]
    have hq : oldScan acc q = acc := by
      unfold oldScan
      rw [if_neg (h q (List.mem_cons_self q rest))]
    rw [hq]
    exact ih acc (fun p hp => h p (List.mem_cons_of_mem q hp))

theorem findOldest_mem {α : Type} (now : Int) (l : List (String × CacheEntry α))
    (k : String) (h : findOldest now l = some k) : k ∈ l.map Prod.fst := by
  unfold findOldest at h
  rcases oldScan_foldl_mem l ((none : Option String), now) k h with hacc | hmem
  · cases hacc
  · exact hmem

theorem findOldest_isSome_of_older {α : Type} (now : Int)
    (l : List (String × CacheEntry α)) (h : ∃ p ∈ l, p.2.timestamp < now) :
    (findOldest now l).isSome := by
  unfold findOldest
  exact oldScan_foldl_trigger l ((none : Option String), now) h

theorem findOldest_head {α : Type} (now : Int) (k0 : String) (e0 : CacheEntry α)
    (rest : List (String × CacheEntry α)) (h0 : e0.timestamp < now)
    (hrest : ∀ p ∈ rest, ¬ p.2.timestamp < e0.timestamp) :
    findOldest now ((k0, e0) :: rest) = some k0 := by
  unfold findOldest
  rw [List.foldl_cons]
  have hstep : oldScan ((none : Option String), now) (k0, e0) = (some k0, e0.timestamp) := by
    unfold oldScan
    rw [if_pos h0]
  rw [hstep, oldScan_foldl_keep rest (some k0, e0.timestamp) hrest]

theorem set_below_capacity {α : Type} (c : InMemoryCache α) (k : String) (v : α)
    (now : Int) (hlen : c.entries.length < c.maxSize) :
    c.set k v now = { c with entries := mapSet c.entries k ⟨v, now, 0⟩ } := by
  unfold InMemoryCache.set
  rw [if_neg (by omega : ¬ c.entries.length ≥ c.maxSize)]

theorem setFold_fresh {α : Type} (v : α) :
    ∀ (zs : List (String × Int)) (c : InMemoryCache α),
    (zs.map Prod.fst).Nodup →
    (∀ kk ∈ zs.map Prod.fst, kk ∉ c.entries.map Prod.fst) →
    c.entries.length + zs.length ≤ c.maxSize →
    zs.foldl (fun c2 kt => c2.set kt.1 v kt.2) c =
      { c with entries := c.entries ++ zs.map (fun kt => (kt.1, ⟨v, kt.2, 0⟩)) } := by
  intro zs
  induction zs with
  | nil => intro c _ _ _; simp
  | cons z rest ih =>
    intro c hnd hfresh hlen
    rw [List.foldl_cons]
    have hfr : c.entries.any (fun p => p.1 == z.1) = false :=
      (any_key_false_iff _ _).mpr (hfresh z.1 (by simp))
    have hset : c.set z.1 v z.2 = { c with entries := c.entries ++ [(z.1, ⟨v, z.2, 0⟩)] } := by
      rw [set_below_capacity c z.1 v z.2 (by simp only [List.length_cons] at hlen; omega),
        mapSet_append_of_fresh _ _ _ hfr]
    rw [hset, ih { c with entries := c.entries ++ [(z.1, ⟨v, z.2, 0⟩)] }
      (by exact hnd.of_cons)
      (by
        intro kk hkk
        simp only [List.map_append, List.map_cons, List.map_nil, List.mem_append,
          List.mem_cons, List.not_mem_nil, or_false]
        rintro (hmem | heq)
        · exact hfresh kk (List.mem_cons_of_mem _ hkk) hmem
        · rw [heq] at hkk
          exact (List.nodup_cons.mp hnd).1 hkk)
      (by
        simp only [List.length_append, List.length_cons, List.length_nil,
          List.length_map] at hlen ⊢
        omega)]
    simp

/-! ## Claim C4 -/

/-- C4: starting from an empty cache of capacity `N > 0`, inserting
`N + 1` distinct keys at strictly increasing timestamps leaves exactly
`N` entries, and the single evicted entry is the first-inserted one (the
one with the oldest creation timestamp — insertion recency, not access
recency). -/
theorem cache_capacity_eviction (α : Type) (v : α) (N : Nat) (hN : 0 < N)
    (pairs : List (String × Int))
    (hlen : pairs.length = N + 1)
    (hnodup : (pairs.map Prod.fst).Nodup)
    (hmono : (pairs.map Prod.snd).Pairwise (· < ·)) :
    (pairs.foldl (fun c kt => c.set kt.1 v kt.2) (newCache α N)).entries.length = N ∧
    (pairs.foldl (fun c kt => c.set kt.1 v kt.2) (newCache α N)).entries.map Prod.fst =
      (pairs.map Prod.fst).drop 1 := by
  cases pairs with
  | nil => simp at hlen
  | cons z0 rest =>
  have hrlen : rest.length = N := by simpa using hlen
  have hne : rest ≠ [] := by
    intro hnil
    rw [hnil] at hrlen
    simp at hrlen
    omega
  set zl := rest.getLast hne with hzl
  have hsplit : rest.dropLast ++ [zl] = rest := List.dropLast_append_getLast hne
  -- the fold over `z0 :: rest` is: fill with `z0 :: rest.dropLast`, then insert `zl`
  have hshape : z0 :: rest = (z0 :: rest.dropLast) ++ [zl] := by
    conv_lhs => rw [← hsplit]
    rw [List.cons_append]
  have hfold : (z0 :: rest).foldl (fun c kt => c.set kt.1 v kt.2) (newCache α N) =
      (((z0 :: rest.dropLast).foldl (fun c kt => c.set kt.1 v kt.2)
        (newCache α N)).set zl.1 v zl.2) := by
    rw [hshape, List.foldl_append, List.foldl_cons, List.foldl_nil]
  have hfillnd : ((z0 :: rest.dropLast).map Prod.fst).Nodup := by
    have hsub : ((z0 :: rest.dropLast).map Prod.fst).Sublist ((z0 :: rest).map Prod.fst) :=
      List.Sublist.map Prod.fst (List.Sublist.cons₂ z0 (List.dropLast_sublist rest))
    exact hnodup.sublist hsub
  have hfill := setFold_fresh v (z0 :: rest.dropLast) (newCache α N) hfillnd
    (by intro kk _ hmem; simp [newCache] at hmem)
    (by
      simp only [newCache, List.length_nil, List.length_cons, List.length_dropLast,
        hrlen, Nat.zero_add]
      omega)
  rw [hfold, hfill]
  -- the filled cache: `N` entries, at capacity
  have hentl : (([] : List (String × CacheEntry α)) ++
      (z0 :: rest.dropLast).map (fun kt => (kt.1, (⟨v, kt.2, 0⟩ : CacheEntry α)))).length
      = N := by
    simp [List.length_dropLast, hrlen]
    omega
  -- head timestamp is strictly the oldest, and older than the final `now`
  have hheadlt : ∀ b ∈ rest.map Prod.snd, z0.2 < b := (List.pairwise_cons.mp hmono).1
  have hzl2 : zl.2 ∈ rest.map Prod.snd :=
    List.mem_map_of_mem Prod.snd (List.getLast_mem hne)
  have h0 : z0.2 < zl.2 := hheadlt zl.2 hzl2
  have hrest : ∀ p ∈ rest.dropLast.map
      (fun kt => ((kt.1, (⟨v, kt.2, 0⟩ : CacheEntry α)) : String × CacheEntry α)),
      ¬ p.2.timestamp < z0.2 := by
    intro p hp
    rcases List.mem_map.mp hp with ⟨kt, hkt, rfl⟩
    have : kt.2 ∈ rest.map Prod.snd :=
      List.mem_map_of_mem Prod.snd ((List.dropLast_sublist rest).mem hkt)
    have := hheadlt kt.2 this
    simp only [CacheEntry.timestamp]
    omega
  -- the final `set` is at capacity: it evicts the head, then appends
  unfold InMemoryCache.set
  rw [if_pos (by
    simp only [newCache, List.nil_append, List.length_map, List.length_cons,
      List.length_dropLast, hrlen]
    omega)]
  unfold InMemoryCache.evictOldest
  simp only [newCache, List.nil_append, List.map_cons]
  rw [findOldest_head zl.2 z0.1 ⟨v, z0.2, 0⟩ _ h0 hrest]
  simp only
  rw [removeKey_cons_self]
  have hfrzl : (rest.dropLast.map
      (fun kt => ((kt.1, (⟨v, kt.2, 0⟩ : CacheEntry α)) : String × CacheEntry α))).any
      (fun p => p.1 == zl.1) = false := by
    rw [any_key_false_iff]
    simp only [List.map_map]
    have hmapeq : rest.dropLast.map (Prod.fst ∘ fun kt =>
        ((kt.1, (⟨v, kt.2, 0⟩ : CacheEntry α)) : String × CacheEntry α)) =
        rest.dropLast.map Prod.fst := by
      apply List.map_congr_left
      intro kt _
      rfl
    rw [hmapeq]
    -- `rest.map fst` is `rest.dropLast.map fst ++ [zl.1]` and Nodup
    have hrnd : (rest.map Prod.fst).Nodup := (List.nodup_cons.mp hnodup).2
    have : rest.dropLast.map Prod.fst ++ [zl.1] = rest.map Prod.fst := by
      rw [← hsplit]
      simp
    rw [← this] at hrnd
    have hdisj := (List.nodup_append.mp hrnd).2.2
    intro hmem
    exact hdisj hmem (by simp)
  rw [mapSet_append_of_fresh _ _ _ hfrzl]
  constructor
  · simp [List.length_dropLast, hrlen]
    omega
  · simp only [List.map_append, List.map_map, List.map_cons, List.map_nil, List.map_drop]
    have h1 : rest.dropLast.map (Prod.fst ∘ fun kt =>
        ((kt.1, (⟨v, kt.2, 0⟩ : CacheEntry α)) : String × CacheEntry α)) =
        rest.dropLast.map Prod.fst := by
      apply List.map_congr_left
      intro kt _
      rfl
    rw [h1]
    have h2 : rest.dropLast.map Prod.fst ++ [zl.1] = rest.map Prod.fst := by
      rw [← hsplit]
      simp
    rw [h2]
    simp

/-- Witness for C4: capacity 2, three distinct keys at times 0 < 1 < 2;
the final cache holds exactly keys "b", "c" — "a" (the oldest) was the
single eviction. -/
theorem cache_capacity_eviction_witness :
    ([("a", (0 : Int)), ("b", 1), ("c", 2)].length = 2 + 1) ∧
    (([("a", (0 : Int)), ("b", 1), ("c", 2)].map Prod.fst).Nodup) ∧
    (([("a", (0 : Int)), ("b", 1), ("c", 2)].map Prod.snd).Pairwise (· < ·)) ∧
    ([("a", (0 : Int)), ("b", 1), ("c", 2)].foldl
      (fun c kt => c.set kt.1 (0 : Nat) kt.2) (newCache Nat 2)).entries.length = 2 ∧
    ([("a", (0 : Int)), ("b", 1), ("c", 2)].foldl
      (fun c kt => c.set kt.1 (0 : Nat) kt.2) (newCache Nat 2)).entries.map Prod.fst =
      ["b", "c"] :=
  ⟨by decide, by decide, by decide,
   (cache_capacity_eviction Nat 0 2 (by decide) [("a", 0), ("b", 1), ("c", 2)]
     (by decide) (by decide) (by decide)).1,
   ((cache_capacity_eviction Nat 0 2 (by decide) [("a", 0), ("b", 1), ("c", 2)]
     (by decide) (by decide) (by decide)).2).trans (by decide)⟩

/-! ## Claim C10 (corrected) -/

set_option maxRecDepth 100000 in
/-- C10 counterexample: 101 distinct keys inserted from an empty cache
of the configured capacity 100, all at a single clock instant
(`Date.now()` never advances, so every entry's timestamp equals `now`):
`evictOldest` finds no entry with `timestamp < now` strictly, evicts
nothing, and the store grows to 101 entries — beyond the configured
maximum. -/
theorem cache_size_counterexample :
    (newCache Nat 100).maxSize = 100 ∧
    (((List.range 101).map (fun i => "k" ++ Nat.repr i)).foldl
      (fun c k => c.set k (0 : Nat) 0) (newCache Nat 100)).entries.length = 101 := by
  constructor
  · rfl
  · decide

/-- C10 amended: the entry count stays within `maxSize` for `get`,
`has`, `delete` and `clear` unconditionally, and for `set` whenever the
insertion happens below capacity, or overwrites an existing key, or at a
moment when some cached entry is strictly older than the current time.
(When every entry's creation timestamp equals the current clock reading,
eviction finds nothing strictly older and a `set` can exceed the
maximum, as the counterexample shows.) -/
theorem cache_size_invariant (α : Type) (c : InMemoryCache α) (k : String) (v : α)
    (now : Int) (hle : c.entries.length ≤ c.maxSize)
    (hset : c.entries.length < c.maxSize ∨ c.entries.any (fun p => p.1 == k) = true ∨
      ∃ p ∈ c.entries, p.2.timestamp < now) :
    (c.set k v now).entries.length ≤ c.maxSize ∧
    ((c.get k now).2).entries.length ≤ c.maxSize ∧
    ((c.has k now).2).entries.length ≤ c.maxSize ∧
    ((c.delete k).2).entries.length ≤ c.maxSize ∧
    (c.clear).entries.length ≤ c.maxSize := by
  refine ⟨?_, ?_, ?_, ?_, ?_⟩
  · by_cases hcap : c.entries.length ≥ c.maxSize
    · cases hfo : findOldest now c.entries with
      | some k0 =>
        have hk0 := findOldest_mem now c.entries k0 hfo
        have hrm := removeKey_length_of_mem c.entries k0 hk0
        simp only [InMemoryCache.set, InMemoryCache.evictOldest, if_pos hcap, hfo]
        cases hany : (removeKey c.entries k0).any (fun p => p.1 == k) with
        | true =>
          rw [mapSet_length_of_mem _ _ _ hany]
          omega
        | false =>
          rw [mapSet_append_of_fresh _ _ _ hany]
          simp only [List.length_append, List.length_cons, List.length_nil]
          omega
      | none =>
        have hnone : ¬ ∃ p ∈ c.entries, p.2.timestamp < now := by
          intro hex
          have hi := findOldest_isSome_of_older now c.entries hex
          rw [hfo] at hi
          cases hi
        have hany : c.entries.any (fun p => p.1 == k) = true := by
          rcases hset with h | h | h
          · omega
          · exact h
          · exact absurd h hnone
        simp only [InMemoryCache.set, InMemoryCache.evictOldest, if_pos hcap, hfo]
        rw [mapSet_length_of_mem _ _ _ hany]
        exact hle
    · have hlt : c.entries.length < c.maxSize := by omega
      rw [set_below_capacity c k v now hlt]
      cases hany : c.entries.any (fun p => p.1 == k) with
      | true =>
        show (mapSet c.entries k ⟨v, now, 0⟩).length ≤ c.maxSize
        rw [mapSet_length_of_mem _ _ _ hany]
        exact hle
      | false =>
        show (mapSet c.entries k ⟨v, now, 0⟩).length ≤ c.maxSize
        rw [mapSet_append_of_fresh _ _ _ hany]
        simp only [List.length_append, List.length_cons, List.length_nil]
        omega
  · simp only [InMemoryCache.get]
    cases hf : c.entries.find? (fun p => p.1 == k) with
    | none =>
      simp only [hf]
      exact hle
    | some p =>
      simp only [hf]
      split
      · exact le_trans (removeKey_length_le c.entries k) hle
      · simp only [List.length_map]
        exact hle
  · simp only [InMemoryCache.has]
    cases hf : c.entries.find? (fun p => p.1 == k) with
    | none =>
      simp only [hf]
      exact hle
    | some p =>
      simp only [hf]
      split
      · exact le_trans (removeKey_length_le c.entries k) hle
      · exact hle
  · simp only [InMemoryCache.delete]
    exact le_trans (removeKey_length_le c.entries k) hle
  · simp only [InMemoryCache.clear, List.length_nil]
    omega

/-- Witness for the amended C10: a full two-entry cache with an entry
strictly older than `now` keeps its size within the maximum across a
`set` of a fresh key. -/
theorem cache_size_invariant_witness :
    ((⟨[("a", ⟨0, 0, 0⟩), ("b", ⟨0, 5, 0⟩)], 2, 3600000⟩ :
        InMemoryCache Nat).entries.length ≤ 2) ∧
    (((⟨[("a", ⟨0, 0, 0⟩), ("b", ⟨0, 5, 0⟩)], 2, 3600000⟩ :
        InMemoryCache Nat).set "c" 0 10).entries.length ≤ 2) :=
  ⟨by decide,
   (cache_size_invariant Nat
     ⟨[("a", ⟨0, 0, 0⟩), ("b", ⟨0, 5, 0⟩)], 2, 3600000⟩ "c" 0 10
     (by decide)
     (Or.inr (Or.inr (by decide)))).1⟩

end OpenSatAI
